import Mathlib

/-!
Shallow embedding of the go-core repository's `rest` HTTP client
(src/rest/client.go, src/rest/errors.go, src/rest/options.go) and of the
`api` response helpers (src/api/response.go), together with theorems
settling the specification claims about them.

External collaborators (the Go standard library's HTTP transport, JSON
codec and context machinery) are modelled as abstract inputs in an
environment record: the embedding fixes only what the repository's own
code does with their results.
-/

namespace Rest

/-- One nanosecond, the unit of Go's time.Duration. -/
def nanosecond : Int := 1

/-- time.Millisecond in nanoseconds. -/
def millisecond : Int := 1000000

/-- time.Second in nanoseconds. -/
def second : Int := 1000000000

/-- The eight sentinel error values declared in src/rest/errors.go. -/
inductive SentinelError where
  | errInvalidRequest
  | errUnauthorized
  | errResourceNotFound
  | errServerError
  | errConnectionFailed
  | errTimeout
  | errUnprocessableEntity
  | errInvalidResponse
deriving DecidableEq

/-- An error value as produced by the rest package's classifier: either one
of the eight package-level sentinels, or a fresh generic error built with
fmt.Errorf (the default branch of getErrorByStatusCode). -/
inductive RestError where
  | sentinel (s : SentinelError)
  | generic (msg : String)
deriving DecidableEq

/-- Model of net/http.StatusText restricted to the codes that can reach the
generic branch of the classifier; Go returns "" for unknown codes. -/
def statusText (code : Int) : String :=
  if code = 100 then "Continue"
  else if code = 101 then "Switching Protocols"
  else if code = 102 then "Processing"
  else if code = 103 then "Early Hints"
  else if code = 300 then "Multiple Choices"
  else if code = 301 then "Moved Permanently"
  else if code = 302 then "Found"
  else if code = 303 then "See Other"
  else if code = 304 then "Not Modified"
  else if code = 305 then "Use Proxy"
  else if code = 307 then "Temporary Redirect"
  else if code = 308 then "Permanent Redirect"
  else ""

/-- getErrorByStatusCode from src/rest/errors.go: maps an HTTP status code
to an error value, first matching rule wins. -/
def getErrorByStatusCode (statusCode : Int) : RestError :=
  if statusCode = 401 then .sentinel .errUnauthorized
  else if statusCode = 404 then .sentinel .errResourceNotFound
  else if statusCode = 422 then .sentinel .errUnprocessableEntity
  else if 400 ≤ statusCode ∧ statusCode < 500 then .sentinel .errInvalidRequest
  else if 500 ≤ statusCode then .sentinel .errServerError
  else .generic ("unexpected status: " ++ statusText statusCode ++ " (" ++ toString statusCode ++ ")")

/-- ClientError from src/rest/errors.go. -/
structure ClientError where
  err : RestError
  message : String
  code : String
deriving DecidableEq

/-- ClientError.Unwrap: returns the underlying error. -/
def ClientError.unwrap (e : ClientError) : RestError := e.err

/-- ClientError.Error: renders the message. -/
def ClientError.render (e : ClientError) (kindText : String) : String :=
  if e.message ≠ "" then kindText ++ ": " ++ e.message else kindText

/-- The fragment of net/http.Client that the rest package observes: its
Timeout field (everything else belongs to the external transport). -/
structure HttpClient where
  timeout : Int
deriving DecidableEq

/-- Opaque handle to a logger.Logger; the client only stores it. -/
structure Logger where
deriving DecidableEq

/-- Client from src/rest/client.go. Retries is a Go int; it is modelled as
a natural number, matching the non-negativity the retry loop assumes. -/
structure Client where
  baseURL : String
  httpClient : HttpClient
  headers : List (String × String)
  retries : Nat
  timeout : Int
  logger : Option Logger
  serviceName : String

/-- A transport-level failure from HTTPClient.Do, tagged by whether
errors.Is finds context.Canceled or context.DeadlineExceeded in it. -/
inductive TransportErr where
  | canceled (msg : String)
  | deadlineExceeded (msg : String)
  | other (msg : String)
deriving DecidableEq

/-- Whether errors.Is(err, context.Canceled) or
errors.Is(err, context.DeadlineExceeded) holds for the failure. -/
def TransportErr.isCtx : TransportErr → Bool
  | .canceled _ => true
  | .deadlineExceeded _ => true
  | .other _ => false

/-- err.Error() for a transport failure. -/
def TransportErr.message : TransportErr → String
  | .canceled m => m
  | .deadlineExceeded m => m
  | .other m => m

/-- The value of ctx.Err() once a context is done. -/
inductive CtxErr where
  | canceled
  | deadlineExceeded
deriving DecidableEq

/-- The part of an http.Response the client reads: status code and the
fully buffered body. -/
structure HttpResponse where
  statusCode : Int
  body : String
deriving DecidableEq

/-- Outcome of one HTTPClient.Do call. -/
inductive AttemptResult where
  | ok (resp : HttpResponse)
  | err (e : TransportErr)
deriving DecidableEq

/-- The optional error envelope recognized on non-2xx bodies:
struct { Message string; Code string } in Client.Request. -/
structure ErrEnvelope where
  message : String
  code : String
deriving DecidableEq

/-- Environment of external effects for one Client.Request call.

  * body: none models a nil body; some models a non-nil body abstracted to
    its json.Marshal outcome (bytes or a marshal error message).
  * newRequestErr: outcome of http.NewRequestWithContext (some = failure).
  * transport: outcome of HTTPClient.Do on each 0-indexed attempt.
  * ctxDoneDuringWait: whether ctx.Done() fires during the backoff wait
    that follows the given failed attempt, and ctxErrDuringWait is the
    value ctx.Err() then yields.
  * readBodyErr: outcome of io.ReadAll on the response body.
  * parseEnvelope: json.Unmarshal of the body into the error envelope
    (none = a parse error).
  * decodeTarget: none models a nil response target; some models a
    supplied target abstracted to its json.Unmarshal outcome on a body. -/
structure Env where
  body : Option (Except String String)
  newRequestErr : Option String
  transport : Nat → AttemptResult
  ctxDoneDuringWait : Nat → Bool
  ctxErrDuringWait : CtxErr
  readBodyErr : Option String
  parseEnvelope : String → Option ErrEnvelope
  decodeTarget : Option (String → Except String Unit)

/-- Observable events of one call: a transport attempt (by 0-indexed
attempt number), a completed backoff wait (duration in nanoseconds), and
the post-loop status-code evaluation. -/
inductive Event where
  | attempt (n : Nat)
  | backoff (d : Int)
  | statusEval (s : Int)
deriving DecidableEq

/-- How the retry loop of Client.Request ends. -/
inductive LoopResult where
  | gotResponse (resp : HttpResponse)
  | transportCtx (e : TransportErr)
  | waitCtx (e : CtxErr)
  | exhausted (lastMsg : String)
deriving DecidableEq

/-- The retry loop of Client.Request (src/rest/client.go lines 101-122),
started at a given attempt index; the loop runs while attempt ≤ retries.
Returns the trace of events together with how the loop ended. -/
def runAttemptsFrom (c : Client) (env : Env) (attempt : Nat) : List Event × LoopResult :=
  match env.transport attempt with
  | .ok resp => ([Event.attempt attempt], .gotResponse resp)
  | .err e =>
    if e.isCtx then ([Event.attempt attempt], .transportCtx e)
    else if attempt < c.retries then
      if env.ctxDoneDuringWait attempt then
        ([Event.attempt attempt], .waitCtx env.ctxErrDuringWait)
      else
        let rest := runAttemptsFrom c env (attempt + 1)
        (Event.attempt attempt :: Event.backoff ((attempt + 1 : Int) * 100 * millisecond) :: rest.1,
          rest.2)
    else ([Event.attempt attempt], .exhausted e.message)
termination_by c.retries + 1 - attempt

/-- An error surfaced to the caller of Client.Request:
  * wrapped: a plain fmt.Errorf-wrapped error (stage is the format text);
  * rawTransportCtx: the transport error returned as-is because errors.Is
    found a context cancellation in it;
  * rawCtxErr: the bare ctx.Err() returned when the context fires during a
    backoff wait;
  * client: a ClientError. -/
inductive SurfacedError where
  | wrapped (stage : String) (msg : String)
  | rawTransportCtx (e : TransportErr)
  | rawCtxErr (e : CtxErr)
  | client (ce : ClientError)
deriving DecidableEq

/-- Result of Client.Request as seen by the caller. -/
inductive RequestOutcome where
  | success
  | failure (e : SurfacedError)
deriving DecidableEq

/-- Post-loop handling of an obtained response (src/rest/client.go lines
130-178): buffer the body, evaluate the status code once, and either
classify the failure or decode into the target. -/
def handleResponse (env : Env) (resp : HttpResponse) : List Event × RequestOutcome :=
  match env.readBodyErr with
  | some m =>
    ([], .failure (.client ⟨.sentinel .errConnectionFailed,
      "failed to read response body: " ++ m, ""⟩))
  | none =>
    let respBody := resp.body
    ([Event.statusEval resp.statusCode],
      if resp.statusCode < 200 ∨ 300 ≤ resp.statusCode then
        match env.parseEnvelope respBody with
        | some er =>
          if er.message ≠ "" then
            .failure (.client ⟨getErrorByStatusCode resp.statusCode, er.message, er.code⟩)
          else
            .failure (.client ⟨getErrorByStatusCode resp.statusCode, respBody,
              toString resp.statusCode⟩)
        | none =>
          .failure (.client ⟨getErrorByStatusCode resp.statusCode, respBody,
            toString resp.statusCode⟩)
      else
        match env.decodeTarget with
        | none => .success
        | some dec =>
          match dec respBody with
          | .ok _ => .success
          | .error m =>
            .failure (.client ⟨.sentinel .errInvalidRequest,
              "failed to parse response: " ++ m, ""⟩))

/-- What one Client.Request call did: the URL it resolved, the trace of
events, and the outcome surfaced to the caller. -/
structure RequestResult where
  url : String
  events : List Event
  outcome : RequestOutcome

/-- Client.Request from src/rest/client.go: resolve the URL, marshal the
body, build the request, run the attempt loop, then evaluate the obtained
response. -/
def request (c : Client) (path : String) (env : Env) : RequestResult :=
  let url := if c.baseURL ≠ "" then c.baseURL ++ path else path
  match env.body with
  | some (.error m) => ⟨url, [], .failure (.wrapped "failed to marshal request body" m)⟩
  | _ =>
    match env.newRequestErr with
    | some m => ⟨url, [], .failure (.wrapped "failed to create request" m)⟩
    | none =>
      let loop := runAttemptsFrom c env 0
      match loop.2 with
      | .transportCtx e => ⟨url, loop.1, .failure (.rawTransportCtx e)⟩
      | .waitCtx e => ⟨url, loop.1, .failure (.rawCtxErr e)⟩
      | .exhausted lastMsg =>
        ⟨url, loop.1, .failure (.client ⟨.sentinel .errConnectionFailed, lastMsg, ""⟩)⟩
      | .gotResponse resp =>
        let post := handleResponse env resp
        ⟨url, loop.1 ++ post.1, post.2⟩

/-- Whether an event is a transport attempt. -/
def Event.isAttempt : Event → Bool
  | .attempt _ => true
  | _ => false

/-- Whether an event is a completed backoff wait. -/
def Event.isBackoff : Event → Bool
  | .backoff _ => true
  | _ => false

/-- Whether an event is the post-loop status evaluation. -/
def Event.isStatusEval : Event → Bool
  | .statusEval _ => true
  | _ => false

/-- Number of transport attempts recorded in a trace. -/
def countAttempts (evs : List Event) : Nat := evs.countP Event.isAttempt

/-- Number of completed backoff waits recorded in a trace. -/
def countBackoffs (evs : List Event) : Nat := evs.countP Event.isBackoff

/-- Number of status evaluations recorded in a trace. -/
def countStatusEvals (evs : List Event) : Nat := evs.countP Event.isStatusEval

/-- Whether an error value is one of the eight package sentinels. -/
def RestError.isSentinel : RestError → Bool
  | .sentinel _ => true
  | .generic _ => false

/-- Set one header key in the header mapping (map assignment in Go). -/
def setHeader (hs : List (String × String)) (k v : String) : List (String × String) :=
  hs.filter (fun kv => kv.1 ≠ k) ++ [(k, v)]

/-- The functional options of src/rest/options.go, as a tagged type: each
constructor carries the payload of the corresponding closure. -/
inductive ClientOption where
  | withBaseURL (url : String)
  | withHTTPClient (hc : HttpClient)
  | withHeader (k v : String)
  | withHeaders (hs : List (String × String))
  | withTimeout (t : Int)
  | withLogger (lg : Logger)
  | withServiceName (name : String)

/-- The mutation each option performs on the client under construction. -/
def applyOption (c : Client) : ClientOption → Client
  | .withBaseURL u => { c with baseURL := u }
  | .withHTTPClient hc => { c with httpClient := hc }
  | .withHeader k v => { c with headers := setHeader c.headers k v }
  | .withHeaders hs =>
    { c with headers := hs.foldl (fun acc kv => setHeader acc kv.1 kv.2) c.headers }
  | .withTimeout t => { c with timeout := t }
  | .withLogger lg => { c with logger := some lg }
  | .withServiceName n => { c with serviceName := n }

/-- The defaults NewClient starts from (src/rest/client.go lines 30-37). -/
def defaultClient : Client :=
  { baseURL := ""
    httpClient := { timeout := 30 * second }
    headers := []
    retries := 3
    timeout := 30 * second
    logger := none
    serviceName := "" }

/-- NewClient from src/rest/client.go: apply the options in order, build a
default logger when none was supplied (this can fail, which aborts the
construction), then overwrite the HTTP client's timeout with the client's
Timeout field. The outcome of the external logger.New call is the
defaultLoggerResult argument. -/
def newClient (defaultLoggerResult : Except String Logger) (opts : List ClientOption) :
    Except String Client :=
  let c := opts.foldl applyOption defaultClient
  match c.logger with
  | none =>
    match defaultLoggerResult with
    | .error e => .error e
    | .ok lg =>
      let c2 := { c with logger := some lg }
      .ok { c2 with httpClient := { c2.httpClient with timeout := c2.timeout } }
  | some _ => .ok { c with httpClient := { c.httpClient with timeout := c.timeout } }

/-- The timeout the option list configures: the value of the last
WithTimeout option, or the 30-second default when none occurs. -/
def lastConfiguredTimeout (opts : List ClientOption) : Int :=
  opts.foldl (fun t o => match o with | .withTimeout t2 => t2 | _ => t) (30 * second)

/-- Modelled from the spec: a path is a "full absolute URL" when it starts
with an http or https scheme. Used only to compare the spec's URL rule
with the code's. -/
def specIsFullURL (path : String) : Bool :=
  "http://".toList.isPrefixOf path.toList || "https://".toList.isPrefixOf path.toList

/-- Every backoff event that immediately follows the attempt numbered n
has duration (n+1) * 100 milliseconds. -/
def backoffFollowsAttempt : List Event → Prop
  | e1 :: e2 :: rest =>
    (∀ n d, e1 = Event.attempt n → e2 = Event.backoff d →
      d = ((n : Int) + 1) * 100 * millisecond) ∧
    backoffFollowsAttempt (e2 :: rest)
  | _ => True

end Rest

namespace Api

mutual
/-- A JSON value, as produced by the api package's marshalling of its
response structures. -/
inductive Json where
  | null
  | bool (b : Bool)
  | num (n : Int)
  | str (s : String)
  | arr (items : JsonList)
  | obj (fields : JsonFields)

/-- A list of JSON array items. -/
inductive JsonList where
  | nil
  | cons (x : Json) (xs : JsonList)

/-- An ordered list of JSON object fields (Go struct fields marshal in
declaration order). -/
inductive JsonFields where
  | nil
  | cons (key : String) (value : Json) (rest : JsonFields)
end

/-- The indentation encoding/json emits at nesting depth d for indent
string "  ": d copies of two spaces. -/
def indent (d : Nat) : String := String.join (List.replicate d "  ")

/-- Model of encoding/json string escaping for one character. -/
def escapeChar (c : Char) : String :=
  if c = '"' then "\\\""
  else if c = '\\' then "\\\\"
  else if c = '\n' then "\\n"
  else if c = '\t' then "\\t"
  else if c = '\r' then "\\r"
  else String.singleton c

/-- A JSON string literal: quoted and escaped. -/
def quote (s : String) : String :=
  "\"" ++ String.join (s.toList.map escapeChar) ++ "\""

mutual
/-- Model of encoding/json.MarshalIndent(v, "", "  ") at nesting depth d. -/
def render (d : Nat) : Json → String
  | .null => "null"
  | .bool true => "true"
  | .bool false => "false"
  | .num n => toString n
  | .str s => quote s
  | .arr .nil => "[]"
  | .arr (.cons x xs) => "[\n" ++ renderItems (d + 1) x xs ++ "\n" ++ indent d ++ "]"
  | .obj .nil => "\x7b\x7d"
  | .obj (.cons k v fs) => "\x7b\n" ++ renderFields (d + 1) k v fs ++ "\n" ++ indent d ++ "\x7d"
termination_by j => sizeOf j
decreasing_by all_goals (simp_wf; try omega)

/-- Render a nonempty run of array items at depth d, comma separated. -/
def renderItems (d : Nat) (x : Json) : JsonList → String
  | .nil => indent d ++ render d x
  | .cons y ys => indent d ++ render d x ++ ",\n" ++ renderItems d y ys
termination_by xs => sizeOf x + sizeOf xs
decreasing_by all_goals (simp_wf; try omega)

/-- Render a nonempty run of object fields at depth d, comma separated. -/
def renderFields (d : Nat) (k : String) (v : Json) : JsonFields → String
  | .nil => indent d ++ quote k ++ ": " ++ render d v
  | .cons k2 v2 fs => indent d ++ quote k ++ ": " ++ render d v ++ ",\n" ++ renderFields d k2 v2 fs
termination_by fs => sizeOf v + sizeOf fs
decreasing_by all_goals (simp_wf; try omega)
end

/-- json.MarshalIndent(v, "", "  ") as called by WriteJSON. -/
def marshalIndent (v : Json) : String := render 0 v

/-- What WriteJSON commits to the ResponseWriter: status code, extra
headers, the content type, and the body bytes. -/
structure WrittenResponse where
  status : Int
  headers : List (String × List String)
  contentType : String
  body : String

/-- WriteJSON from src/api/response.go: marshal with two-space indent,
append a newline, set headers and status, write the body. -/
def writeJSON (status : Int) (data : Json) (headers : List (String × List String)) :
    WrittenResponse :=
  { status := status
    headers := headers
    contentType := "application/json"
    body := marshalIndent data ++ "\n" }

/-- The JSON object a SuccessResponse value marshals to: fields
status_code, data, and meta (omitted when the Meta interface is empty). -/
def successJson (data : Json) (meta : Option Json) : Json :=
  .obj (.cons "status_code" (.num 200) (.cons "data" data
    (match meta with
     | none => .nil
     | some m => .cons "meta" m .nil)))

/-- WriteSuccess from src/api/response.go: wrap the data (and the first
optional meta argument, when given) in a SuccessResponse and write it with
status 200. -/
def writeSuccess (data : Json) (meta : Option Json) : WrittenResponse :=
  writeJSON 200 (successJson data meta) []

/-- api.Error from src/api/response.go: status code plus message. -/
structure AError where
  statusCode : Int
  message : String

/-- The error argument WriteError receives: either an api.Error value or
any other Go error (abstracted to its message). -/
inductive GoError where
  | api (e : AError)
  | generic (msg : String)

/-- The JSON object an api.Error marshals to. -/
def errorJson (e : AError) : Json :=
  .obj (.cons "status_code" (.num e.statusCode) (.cons "message" (.str e.message) .nil))

/-- WriteError from src/api/response.go: use the api.Error as is, or wrap
any other error as a 500 ServerError, then write the error envelope. -/
def writeError (err : GoError) : WrittenResponse :=
  match err with
  | .api e => writeJSON e.statusCode (.obj (.cons "error" (errorJson e) .nil)) []
  | .generic m => writeJSON 500 (.obj (.cons "error" (errorJson ⟨500, m⟩) .nil)) []

end Api

namespace Rest

/-- A baseline environment: nil body, request construction succeeds, every
transport attempt is refused at the connection level, the caller's context
stays alive, and no response machinery is exercised. -/
def baseEnv : Env :=
  { body := none
    newRequestErr := none
    transport := fun _ => .err (.other "dial tcp: connection refused")
    ctxDoneDuringWait := fun _ => false
    ctxErrDuringWait := .canceled
    readBodyErr := none
    parseEnvelope := fun _ => none
    decodeTarget := none }

/-- A server that answers 404 with a non-envelope body on every attempt. -/
def env404 : Env := { baseEnv with transport := fun _ => .ok ⟨404, "not found"⟩ }

/-- A server that answers 422 with a parseable error envelope. -/
def env422 : Env :=
  { baseEnv with
    transport := fun _ => .ok ⟨422, "\x7b\"message\":\"bad entity\",\"code\":\"E42\"\x7d"⟩
    parseEnvelope := fun _ => some ⟨"bad entity", "E42"⟩ }

/-- A server that answers 200 with a body the caller's target rejects. -/
def env200decodeFail : Env :=
  { baseEnv with
    transport := fun _ => .ok ⟨200, "not json"⟩
    decodeTarget := some (fun _ => .error "invalid character") }

/-- A server that answers 200 with an empty JSON object, nil target. -/
def env200ok : Env := { baseEnv with transport := fun _ => .ok ⟨200, "\x7b\x7d"⟩ }

/-- A server that answers with a 300 redirect status. -/
def env300 : Env := { baseEnv with transport := fun _ => .ok ⟨300, "redirect"⟩ }

/-- A client with the NewClient defaults and a constructed logger. -/
def clientDefault : Client := { defaultClient with logger := some ⟨⟩ }

/-- The default client with Retries set to 2. -/
def clientR2 : Client := { clientDefault with retries := 2 }

/-- The default client with Retries set to 0. -/
def clientR0 : Client := { clientDefault with retries := 0 }

/-- The default client with a base URL configured. -/
def clientBaseA : Client := { clientDefault with baseURL := "http://a" }

/-- Options for the NewClient timeout interaction: inject a custom HTTP
client carrying a 5-second timeout, then configure a 10-second timeout. -/
def timeoutOpts : List ClientOption :=
  [.withHTTPClient ⟨5 * second⟩, .withTimeout (10 * second)]

/-- The client those options construct. -/
def timeoutOptsClient : Client :=
  match newClient (.ok ⟨⟩) timeoutOpts with
  | .ok c => c
  | .error _ => defaultClient

end Rest

namespace Rest

/-- If the body marshals and the request builds, a loop that obtained a
response hands that response to the post-loop handler, once. -/
theorem request_of_gotResponse (c : Client) (path : String) (env : Env) (resp : HttpResponse)
    (hbody : ∀ m, env.body ≠ some (Except.error m))
    (hreq : env.newRequestErr = none)
    (hloop : (runAttemptsFrom c env 0).2 = LoopResult.gotResponse resp) :
    (request c path env).outcome = (handleResponse env resp).2 ∧
    (request c path env).events = (runAttemptsFrom c env 0).1 ++ (handleResponse env resp).1 := by
  rcases hb : env.body with _ | v
  · refine ⟨?_, ?_⟩ <;> simp [request, hb, hreq, hloop]
  · rcases v with m | s
    · exact absurd hb (hbody m)
    · refine ⟨?_, ?_⟩ <;> simp [request, hb, hreq, hloop]

/-- If the body marshals and the request builds, an exhausted loop
surfaces a connection-failed ClientError carrying the last message. -/
theorem request_of_exhausted (c : Client) (path : String) (env : Env) (m : String)
    (hbody : ∀ m2, env.body ≠ some (Except.error m2))
    (hreq : env.newRequestErr = none)
    (hloop : (runAttemptsFrom c env 0).2 = LoopResult.exhausted m) :
    (request c path env).outcome =
      .failure (.client ⟨.sentinel .errConnectionFailed, m, ""⟩) ∧
    (request c path env).events = (runAttemptsFrom c env 0).1 := by
  rcases hb : env.body with _ | v
  · refine ⟨?_, ?_⟩ <;> simp [request, hb, hreq, hloop]
  · rcases v with m2 | s
    · exact absurd hb (hbody m2)
    · refine ⟨?_, ?_⟩ <;> simp [request, hb, hreq, hloop]

/-- The status-code classifier, split into the five claim cases. -/
theorem getError_cases (s : Int) :
    (s = 401 → getErrorByStatusCode s = .sentinel .errUnauthorized) ∧
    (s = 404 → getErrorByStatusCode s = .sentinel .errResourceNotFound) ∧
    (s = 422 → getErrorByStatusCode s = .sentinel .errUnprocessableEntity) ∧
    (400 ≤ s → s < 500 → s ≠ 401 → s ≠ 404 → s ≠ 422 →
      getErrorByStatusCode s = .sentinel .errInvalidRequest) ∧
    (500 ≤ s → getErrorByStatusCode s = .sentinel .errServerError) := by
  refine ⟨?_, ?_, ?_, ?_, ?_⟩
  · rintro rfl; decide
  · rintro rfl; decide
  · rintro rfl; decide
  · intro h1 h2 h3 h4 h5
    unfold getErrorByStatusCode
    rw [if_neg h3, if_neg h4, if_neg h5, if_pos ⟨h1, h2⟩]
  · intro h
    unfold getErrorByStatusCode
    rw [if_neg (by omega), if_neg (by omega), if_neg (by omega), if_neg (by omega), if_pos h]

/-- Post-loop handling of a non-2xx response: the error kind comes from the
classifier, the message and code from the envelope when it parsed with a
message, else from the raw body and stringified status. -/
theorem handleResponse_non2xx (env : Env) (resp : HttpResponse)
    (hread : env.readBodyErr = none)
    (hstatus : resp.statusCode < 200 ∨ 300 ≤ resp.statusCode) :
    (∀ er, env.parseEnvelope resp.body = some er → er.message ≠ "" →
      (handleResponse env resp).2 =
        .failure (.client ⟨getErrorByStatusCode resp.statusCode, er.message, er.code⟩)) ∧
    (∀ er, env.parseEnvelope resp.body = some er → er.message = "" →
      (handleResponse env resp).2 =
        .failure (.client ⟨getErrorByStatusCode resp.statusCode, resp.body,
          toString resp.statusCode⟩)) ∧
    (env.parseEnvelope resp.body = none →
      (handleResponse env resp).2 =
        .failure (.client ⟨getErrorByStatusCode resp.statusCode, resp.body,
          toString resp.statusCode⟩)) := by
  refine ⟨?_, ?_, ?_⟩
  · intro er hp hm
    simp only [handleResponse, hread]
    rw [if_pos hstatus]
    simp [hp, hm]
  · intro er hp hm
    simp only [handleResponse, hread]
    rw [if_pos hstatus]
    simp [hp, hm]
  · intro hp
    simp only [handleResponse, hread]
    rw [if_pos hstatus]
    simp [hp]

/-- Post-loop handling of a 2xx response: nil target discards the body and
succeeds; a failing decode surfaces ErrInvalidRequest with the detail. -/
theorem handleResponse_2xx (env : Env) (resp : HttpResponse)
    (hread : env.readBodyErr = none)
    (hstatus : 200 ≤ resp.statusCode ∧ resp.statusCode < 300) :
    (env.decodeTarget = none → (handleResponse env resp).2 = .success) ∧
    (∀ dec m, env.decodeTarget = some dec → dec resp.body = .error m →
      (handleResponse env resp).2 =
        .failure (.client ⟨.sentinel .errInvalidRequest,
          "failed to parse response: " ++ m, ""⟩)) ∧
    (∀ dec, env.decodeTarget = some dec → dec resp.body = .ok () →
      (handleResponse env resp).2 = .success) := by
  have hcond : ¬(resp.statusCode < 200 ∨ 300 ≤ resp.statusCode) := by omega
  refine ⟨?_, ?_, ?_⟩
  · intro hdec
    simp only [handleResponse, hread]
    rw [if_neg hcond]
    simp [hdec]
  · intro dec m hdec hm
    simp only [handleResponse, hread]
    rw [if_neg hcond]
    simp [hdec, hm]
  · intro dec hdec hm
    simp only [handleResponse, hread]
    rw [if_neg hcond]
    simp [hdec, hm]

/-- C1: for every HTTP response obtained by Client.Request whose status
code lies outside [200,300), the returned error unwraps via
ClientError.Unwrap to the kind determined solely by the status code
(401 to Unauthorized, 404 to ResourceNotFound, 422 to UnprocessableEntity,
any other status in [400,500) to InvalidRequest, any status at least 500
to ServerError), regardless of the response body content. -/
theorem request_status_determines_kind (c : Client) (path : String) (env : Env)
    (resp : HttpResponse)
    (hbody : ∀ m, env.body ≠ some (Except.error m))
    (hreq : env.newRequestErr = none)
    (hloop : (runAttemptsFrom c env 0).2 = LoopResult.gotResponse resp)
    (hread : env.readBodyErr = none)
    (hstatus : resp.statusCode < 200 ∨ 300 ≤ resp.statusCode) :
    ∃ ce : ClientError,
      (request c path env).outcome = .failure (.client ce) ∧
      ce.unwrap = getErrorByStatusCode resp.statusCode ∧
      (resp.statusCode = 401 → ce.unwrap = .sentinel .errUnauthorized) ∧
      (resp.statusCode = 404 → ce.unwrap = .sentinel .errResourceNotFound) ∧
      (resp.statusCode = 422 → ce.unwrap = .sentinel .errUnprocessableEntity) ∧
      (400 ≤ resp.statusCode → resp.statusCode < 500 → resp.statusCode ≠ 401 →
        resp.statusCode ≠ 404 → resp.statusCode ≠ 422 →
        ce.unwrap = .sentinel .errInvalidRequest) ∧
      (500 ≤ resp.statusCode → ce.unwrap = .sentinel .errServerError) := by
  obtain ⟨ho, -⟩ := request_of_gotResponse c path env resp hbody hreq hloop
  obtain ⟨henv, hempty, hnoparse⟩ := handleResponse_non2xx env resp hread hstatus
  obtain ⟨g1, g2, g3, g4, g5⟩ := getError_cases resp.statusCode
  have key : ∃ msg code, (handleResponse env resp).2 =
      .failure (.client ⟨getErrorByStatusCode resp.statusCode, msg, code⟩) := by
    rcases hp : env.parseEnvelope resp.body with _ | er
    · exact ⟨resp.body, toString resp.statusCode, hnoparse hp⟩
    · by_cases hm : er.message = ""
      · exact ⟨resp.body, toString resp.statusCode, hempty er hp hm⟩
      · exact ⟨er.message, er.code, henv er hp hm⟩
  obtain ⟨msg, code, hkey⟩ := key
  refine ⟨⟨getErrorByStatusCode resp.statusCode, msg, code⟩, ?_, rfl, ?_, ?_, ?_, ?_, ?_⟩
  · rw [ho, hkey]
  · intro h; exact g1 h
  · intro h; exact g2 h
  · intro h; exact g3 h
  · intro h1 h2 h3 h4 h5; exact g4 h1 h2 h3 h4 h5
  · intro h; exact g5 h

/-- C1 witness: a 404 response with a non-envelope body yields an error
unwrapping to ErrResourceNotFound. -/
theorem request_status_determines_kind_witness :
    ∃ ce : ClientError,
      (request clientDefault "/users/9" env404).outcome = .failure (.client ce) ∧
      ce.unwrap = getErrorByStatusCode 404 ∧
      ((404 : Int) = 401 → ce.unwrap = .sentinel .errUnauthorized) ∧
      ((404 : Int) = 404 → ce.unwrap = .sentinel .errResourceNotFound) ∧
      ((404 : Int) = 422 → ce.unwrap = .sentinel .errUnprocessableEntity) ∧
      ((400 : Int) ≤ 404 → (404 : Int) < 500 → (404 : Int) ≠ 401 →
        (404 : Int) ≠ 404 → (404 : Int) ≠ 422 →
        ce.unwrap = .sentinel .errInvalidRequest) ∧
      ((500 : Int) ≤ 404 → ce.unwrap = .sentinel .errServerError) :=
  request_status_determines_kind clientDefault "/users/9" env404 ⟨404, "not found"⟩
    (by simp [env404, baseEnv]) rfl (by simp [runAttemptsFrom, env404, baseEnv]) rfl
    (by norm_num)

/-- C6: for every non-2xx response, the ClientError carries the envelope
message and code when the body parses as the envelope with a non-empty
message, and otherwise the raw body text as message with the stringified
numeric status as code. -/
theorem request_error_payload (c : Client) (path : String) (env : Env)
    (resp : HttpResponse)
    (hbody : ∀ m, env.body ≠ some (Except.error m))
    (hreq : env.newRequestErr = none)
    (hloop : (runAttemptsFrom c env 0).2 = LoopResult.gotResponse resp)
    (hread : env.readBodyErr = none)
    (hstatus : resp.statusCode < 200 ∨ 300 ≤ resp.statusCode) :
    (∀ er, env.parseEnvelope resp.body = some er → er.message ≠ "" →
      (request c path env).outcome =
        .failure (.client ⟨getErrorByStatusCode resp.statusCode, er.message, er.code⟩)) ∧
    (∀ er, env.parseEnvelope resp.body = some er → er.message = "" →
      (request c path env).outcome =
        .failure (.client ⟨getErrorByStatusCode resp.statusCode, resp.body,
          toString resp.statusCode⟩)) ∧
    (env.parseEnvelope resp.body = none →
      (request c path env).outcome =
        .failure (.client ⟨getErrorByStatusCode resp.statusCode, resp.body,
          toString resp.statusCode⟩)) := by
  obtain ⟨ho, -⟩ := request_of_gotResponse c path env resp hbody hreq hloop
  obtain ⟨henv, hempty, hnoparse⟩ := handleResponse_non2xx env resp hread hstatus
  refine ⟨?_, ?_, ?_⟩
  · intro er hp hm; rw [ho]; exact henv er hp hm
  · intro er hp hm; rw [ho]; exact hempty er hp hm
  · intro hp; rw [ho]; exact hnoparse hp

/-- C6 witness: a 422 response whose body parses as the error envelope
surfaces the envelope's message and code. -/
theorem request_error_payload_witness :
    (∀ er, env422.parseEnvelope "\x7b\"message\":\"bad entity\",\"code\":\"E42\"\x7d" = some er →
      er.message ≠ "" →
      (request clientDefault "/things" env422).outcome =
        .failure (.client ⟨getErrorByStatusCode 422, er.message, er.code⟩)) ∧
    (∀ er, env422.parseEnvelope "\x7b\"message\":\"bad entity\",\"code\":\"E42\"\x7d" = some er →
      er.message = "" →
      (request clientDefault "/things" env422).outcome =
        .failure (.client ⟨getErrorByStatusCode 422,
          "\x7b\"message\":\"bad entity\",\"code\":\"E42\"\x7d", toString (422 : Int)⟩)) ∧
    (env422.parseEnvelope "\x7b\"message\":\"bad entity\",\"code\":\"E42\"\x7d" = none →
      (request clientDefault "/things" env422).outcome =
        .failure (.client ⟨getErrorByStatusCode 422,
          "\x7b\"message\":\"bad entity\",\"code\":\"E42\"\x7d", toString (422 : Int)⟩)) :=
  request_error_payload clientDefault "/things" env422
    ⟨422, "\x7b\"message\":\"bad entity\",\"code\":\"E42\"\x7d"⟩
    (by simp [env422, baseEnv]) rfl (by simp [runAttemptsFrom, env422, baseEnv]) rfl
    (by norm_num)

/-- C8: on a 2xx response a nil target discards the body and succeeds,
while a supplied target whose JSON decode fails yields a ClientError of
kind ErrInvalidRequest wrapping the decode failure detail, even though the
HTTP exchange succeeded. -/
theorem request_success_decode (c : Client) (path : String) (env : Env)
    (resp : HttpResponse)
    (hbody : ∀ m, env.body ≠ some (Except.error m))
    (hreq : env.newRequestErr = none)
    (hloop : (runAttemptsFrom c env 0).2 = LoopResult.gotResponse resp)
    (hread : env.readBodyErr = none)
    (hstatus : 200 ≤ resp.statusCode ∧ resp.statusCode < 300) :
    (env.decodeTarget = none → (request c path env).outcome = .success) ∧
    (∀ dec m, env.decodeTarget = some dec → dec resp.body = .error m →
      (request c path env).outcome =
        .failure (.client ⟨.sentinel .errInvalidRequest,
          "failed to parse response: " ++ m, ""⟩)) := by
  obtain ⟨ho, -⟩ := request_of_gotResponse c path env resp hbody hreq hloop
  obtain ⟨hnil, hfail, -⟩ := handleResponse_2xx env resp hread hstatus
  refine ⟨?_, ?_⟩
  · intro hdec; rw [ho]; exact hnil hdec
  · intro dec m hdec hm; rw [ho]; exact hfail dec m hdec hm

/-- C8 witness: a 200 response whose body the supplied target rejects
surfaces ErrInvalidRequest with the decode detail. -/
theorem request_success_decode_witness :
    (env200decodeFail.decodeTarget = none →
      (request clientDefault "/users" env200decodeFail).outcome = .success) ∧
    (∀ dec m, env200decodeFail.decodeTarget = some dec → dec "not json" = .error m →
      (request clientDefault "/users" env200decodeFail).outcome =
        .failure (.client ⟨.sentinel .errInvalidRequest,
          "failed to parse response: " ++ m, ""⟩)) :=
  request_success_decode clientDefault "/users" env200decodeFail ⟨200, "not json"⟩
    (by simp [env200decodeFail, baseEnv]) rfl
    (by simp [runAttemptsFrom, env200decodeFail, baseEnv]) rfl (by norm_num)

/-- When every attempt from index a up to Retries fails at the transport
level with a non-cancellation error and the context stays alive, the loop
runs all remaining attempts, waits between them, and exhausts with the
last error's message. -/
theorem runAttempts_allFail (c : Client) (env : Env) (msg : Nat → String)
    (hfail : ∀ k, k ≤ c.retries → env.transport k = .err (.other (msg k)))
    (hctx : ∀ k, env.ctxDoneDuringWait k = false) :
    ∀ d a, c.retries - a = d → a ≤ c.retries →
      (runAttemptsFrom c env a).2 = .exhausted (msg c.retries) ∧
      countAttempts (runAttemptsFrom c env a).1 = c.retries + 1 - a ∧
      countBackoffs (runAttemptsFrom c env a).1 = c.retries - a := by
  intro d
  induction d with
  | zero =>
    intro a hd ha
    have haeq : a = c.retries := by omega
    subst haeq
    have h1 := hfail c.retries le_rfl
    unfold runAttemptsFrom
    rw [h1]
    simp [TransportErr.isCtx, TransportErr.message, countAttempts, countBackoffs,
      Event.isAttempt, Event.isBackoff]
  | succ d ih =>
    intro a hd ha
    have ha2 : a < c.retries := by omega
    have h1 := hfail a (by omega)
    have h2 := hctx a
    obtain ⟨ihr, ihA, ihB⟩ := ih (a + 1) (by omega) (by omega)
    unfold runAttemptsFrom
    rw [h1]
    simp only [TransportErr.isCtx, if_true, if_false, h2, ha2, if_pos ha2,
      Bool.false_eq_true, ite_false]
    refine ⟨ihr, ?_, ?_⟩
    · simp [countAttempts, List.countP_cons, Event.isAttempt] at ihA ⊢
      omega
    · simp [countBackoffs, List.countP_cons, Event.isBackoff] at ihB ⊢
      omega

/-- C2: when every transport attempt fails with a non-cancellation error
and the caller's context stays alive, Client.Request performs exactly
Retries + 1 attempts, waits Retries times, and surfaces a ClientError of
kind ErrConnectionFailed whose message is the last transport error's
message; Retries = 0 means one attempt and no backoff wait. -/
theorem request_retries_exhausted (c : Client) (path : String) (env : Env)
    (msg : Nat → String)
    (hbody : ∀ m, env.body ≠ some (Except.error m))
    (hreq : env.newRequestErr = none)
    (hfail : ∀ k, k ≤ c.retries → env.transport k = .err (.other (msg k)))
    (hctx : ∀ k, env.ctxDoneDuringWait k = false) :
    countAttempts (request c path env).events = c.retries + 1 ∧
    countBackoffs (request c path env).events = c.retries ∧
    (request c path env).outcome =
      .failure (.client ⟨.sentinel .errConnectionFailed, msg c.retries, ""⟩) ∧
    (c.retries = 0 → countAttempts (request c path env).events = 1 ∧
      countBackoffs (request c path env).events = 0) := by
  obtain ⟨hr, hA, hB⟩ := runAttempts_allFail c env msg hfail hctx (c.retries - 0) 0 rfl
    (Nat.zero_le _)
  obtain ⟨ho, he⟩ := request_of_exhausted c path env (msg c.retries) hbody hreq hr
  rw [he, ho]
  refine ⟨by omega, by omega, rfl, fun h0 => ⟨by omega, by omega⟩⟩

/-- C2 witness: with Retries = 2 and a connection refused on every
attempt, three attempts happen, two waits, and the surfaced error is
connection-failed with the transport message. -/
theorem request_retries_exhausted_witness :
    countAttempts (request clientR2 "/x" baseEnv).events = clientR2.retries + 1 ∧
    countBackoffs (request clientR2 "/x" baseEnv).events = clientR2.retries ∧
    (request clientR2 "/x" baseEnv).outcome =
      .failure (.client ⟨.sentinel .errConnectionFailed,
        "dial tcp: connection refused", ""⟩) ∧
    (clientR2.retries = 0 → countAttempts (request clientR2 "/x" baseEnv).events = 1 ∧
      countBackoffs (request clientR2 "/x" baseEnv).events = 0) :=
  request_retries_exhausted clientR2 "/x" baseEnv (fun _ => "dial tcp: connection refused")
    (by simp [baseEnv]) rfl (by intro k hk; rfl) (by intro k; rfl)

/-- Every event the retry loop records is an attempt or a backoff wait;
status evaluation never happens inside the loop. -/
theorem runAttempts_events_shape (c : Client) (env : Env) :
    ∀ d a, c.retries + 1 - a ≤ d →
      ∀ e ∈ (runAttemptsFrom c env a).1,
        (∃ m, e = Event.attempt m) ∨ (∃ dd, e = Event.backoff dd) := by
  intro d
  induction d with
  | zero =>
    intro a hd e he
    unfold runAttemptsFrom at he
    split at he
    · simp at he
      exact Or.inl ⟨a, he⟩
    · split at he
      · simp at he
        exact Or.inl ⟨a, he⟩
      · split at he
        · next ha =>
          exact absurd ha (by omega)
        · simp at he
          exact Or.inl ⟨a, he⟩
  | succ d ih =>
    intro a hd e he
    unfold runAttemptsFrom at he
    split at he
    · simp at he
      exact Or.inl ⟨a, he⟩
    · split at he
      · simp at he
        exact Or.inl ⟨a, he⟩
      · split at he
        · split at he
          · simp at he
            exact Or.inl ⟨a, he⟩
          · simp only [List.mem_cons] at he
            rcases he with rfl | he
            · exact Or.inl ⟨a, rfl⟩
            rcases he with rfl | he
            · exact Or.inr ⟨_, rfl⟩
            · exact ih (a + 1) (by omega) e he
        · simp at he
          exact Or.inl ⟨a, he⟩

/-- If some attempt index n returns a response, no attempt recorded by a
loop started at or below n exceeds n: the loop stops at the first
transport-level success. -/
theorem runAttempts_attempt_le (c : Client) (env : Env) (n : Nat) (resp : HttpResponse)
    (hok : env.transport n = .ok resp) :
    ∀ d a, n - a ≤ d → a ≤ n →
      ∀ m, Event.attempt m ∈ (runAttemptsFrom c env a).1 → m ≤ n := by
  intro d
  induction d with
  | zero =>
    intro a hd ha m hm
    have haeq : a = n := by omega
    subst haeq
    unfold runAttemptsFrom at hm
    rw [hok] at hm
    simp at hm
    omega
  | succ d ih =>
    intro a hd ha m hm
    by_cases han : a = n
    · subst han
      unfold runAttemptsFrom at hm
      rw [hok] at hm
      simp at hm
      omega
    · have ha2 : a < n := lt_of_le_of_ne ha han
      unfold runAttemptsFrom at hm
      split at hm
      · simp at hm
        omega
      · split at hm
        · simp at hm
          omega
        · split at hm
          · split at hm
            · simp at hm
              omega
            · simp only [List.mem_cons] at hm
              rcases hm with hm | hm
              · cases hm; omega
              rcases hm with hm | hm
              · cases hm
              · exact ih (a + 1) (by omega) (by omega) m hm
          · simp at hm
            omega

/-- The post-loop handler records at most the single status evaluation. -/
theorem handleResponse_events (env : Env) (resp : HttpResponse) :
    (handleResponse env resp).1 = [] ∨
    (handleResponse env resp).1 = [Event.statusEval resp.statusCode] := by
  rcases hr : env.readBodyErr with _ | m
  · right
    simp [handleResponse, hr]
  · left
    simp [handleResponse, hr]

/-- Attempts stop at the first transport success and all status
evaluations come after all attempts. -/
theorem request_stops_aux (c : Client) (path : String) (env : Env) (n : Nat)
    (resp : HttpResponse) (hok : env.transport n = .ok resp) :
    (∀ m, Event.attempt m ∈ (request c path env).events → m ≤ n) ∧
    countStatusEvals (request c path env).events ≤ 1 ∧
    ∃ k, (∀ e ∈ ((request c path env).events.take k), ∀ s, e ≠ Event.statusEval s) ∧
      (∀ e ∈ ((request c path env).events.drop k), ∀ m, e ≠ Event.attempt m) := by
  have hloopA : ∀ m, Event.attempt m ∈ (runAttemptsFrom c env 0).1 → m ≤ n :=
    runAttempts_attempt_le c env n resp hok (n - 0) 0 le_rfl (Nat.zero_le _)
  have hloopS : ∀ e ∈ (runAttemptsFrom c env 0).1, ∀ s, e ≠ Event.statusEval s := by
    intro e he s
    rcases runAttempts_events_shape c env (c.retries + 1 - 0) 0 le_rfl e he with ⟨m, rfl⟩ | ⟨dd, rfl⟩
    · intro h; cases h
    · intro h; cases h
  have hloopS0 : countStatusEvals (runAttemptsFrom c env 0).1 = 0 := by
    rw [countStatusEvals, List.countP_eq_zero]
    intro e he
    rcases runAttempts_events_shape c env (c.retries + 1 - 0) 0 le_rfl e he with ⟨m, rfl⟩ | ⟨dd, rfl⟩
    · simp [Event.isStatusEval]
    · simp [Event.isStatusEval]
  rcases hb : env.body with _ | v
  case _ =>
    rcases hq : env.newRequestErr with _ | m2
    · rcases hl : (runAttemptsFrom c env 0).2 with r | te | ce | m3
      · have hev : (request c path env).events =
            (runAttemptsFrom c env 0).1 ++ (handleResponse env r).1 := by
          simp [request, hb, hq, hl]
        rw [hev]
        refine ⟨?_, ?_, ⟨(runAttemptsFrom c env 0).1.length, ?_, ?_⟩⟩
        · intro m hm
          rcases List.mem_append.1 hm with hm | hm
          · exact hloopA m hm
          · exfalso
            rcases handleResponse_events env r with h | h <;> rw [h] at hm <;> simp at hm
        · rw [countStatusEvals, List.countP_append]
          have h2 : (handleResponse env r).1.countP Event.isStatusEval ≤ 1 := by
            rcases handleResponse_events env r with h | h <;> rw [h] <;> simp [Event.isStatusEval]
          have h1 : (runAttemptsFrom c env 0).1.countP Event.isStatusEval = 0 := hloopS0
          omega
        · rw [List.take_left]
          exact hloopS
        · rw [List.drop_left]
          intro e he m
          rcases handleResponse_events env r with h | h <;> rw [h] at he <;> simp at he
          rw [he]
          intro hcon; cases hcon
      all_goals
        have hev : (request c path env).events = (runAttemptsFrom c env 0).1 := by
          simp [request, hb, hq, hl]
        rw [hev]
        refine ⟨hloopA, by simp [hloopS0], ⟨(runAttemptsFrom c env 0).1.length, ?_, ?_⟩⟩
      all_goals try (rw [List.take_length]; exact hloopS)
      all_goals rw [List.drop_length]; intro e he; simp at he
    · have hev : (request c path env).events = [] := by
        simp [request, hb, hq]
      rw [hev]
      exact ⟨by intro m hm; simp at hm, by simp [countStatusEvals], 0, by simp, by simp⟩
  case _ =>
    rcases v with m2 | s
    · have hev : (request c path env).events = [] := by
        simp [request, hb]
      rw [hev]
      exact ⟨by intro m hm; simp at hm, by simp [countStatusEvals], 0, by simp, by simp⟩
    · rcases hq : env.newRequestErr with _ | m2
      · rcases hl : (runAttemptsFrom c env 0).2 with r | te | ce | m3
        · have hev : (request c path env).events =
              (runAttemptsFrom c env 0).1 ++ (handleResponse env r).1 := by
            simp [request, hb, hq, hl]
          rw [hev]
          refine ⟨?_, ?_, ⟨(runAttemptsFrom c env 0).1.length, ?_, ?_⟩⟩
          · intro m hm
            rcases List.mem_append.1 hm with hm | hm
            · exact hloopA m hm
            · exfalso
              rcases handleResponse_events env r with h | h <;> rw [h] at hm <;> simp at hm
          · rw [countStatusEvals, List.countP_append]
            have h2 : (handleResponse env r).1.countP Event.isStatusEval ≤ 1 := by
              rcases handleResponse_events env r with h | h <;> rw [h] <;> simp [Event.isStatusEval]
            have h1 : (runAttemptsFrom c env 0).1.countP Event.isStatusEval = 0 := hloopS0
            omega
          · rw [List.take_left]
            exact hloopS
          · rw [List.drop_left]
            intro e he m
            rcases handleResponse_events env r with h | h <;> rw [h] at he <;> simp at he
            rw [he]
            intro hcon; cases hcon
        all_goals
          have hev : (request c path env).events = (runAttemptsFrom c env 0).1 := by
            simp [request, hb, hq, hl]
          rw [hev]
          refine ⟨hloopA, by simp [hloopS0], ⟨(runAttemptsFrom c env 0).1.length, ?_, ?_⟩⟩
        all_goals try (rw [List.take_length]; exact hloopS)
        all_goals rw [List.drop_length]; intro e he; simp at he
      · have hev : (request c path env).events = [] := by
          simp [request, hb, hq]
        rw [hev]
        exact ⟨by intro m hm; simp at hm, by simp [countStatusEvals], 0, by simp, by simp⟩

/-- The loop's trace always starts with the attempt it was started at. -/
theorem runAttempts_head (c : Client) (env : Env) (a : Nat) :
    ∃ tl, (runAttemptsFrom c env a).1 = Event.attempt a :: tl := by
  unfold runAttemptsFrom
  split
  · exact ⟨[], rfl⟩
  · split
    · exact ⟨[], rfl⟩
    · split
      · split
        · exact ⟨[], rfl⟩
        · exact ⟨_, rfl⟩
      · exact ⟨[], rfl⟩

/-- Unfolding of the loop in the branch that waits and retries. -/
theorem runAttempts_step (c : Client) (env : Env) (a : Nat) (e : TransportErr)
    (heq : env.transport a = .err e) (hc : ¬e.isCtx = true) (hlt : a < c.retries)
    (hw : ¬env.ctxDoneDuringWait a = true) :
    runAttemptsFrom c env a =
      (Event.attempt a :: Event.backoff ((a + 1 : Int) * 100 * millisecond) ::
        (runAttemptsFrom c env (a + 1)).1, (runAttemptsFrom c env (a + 1)).2) := by
  rw [runAttemptsFrom]
  rw [heq]
  simp [hc, hlt, hw]

/-- Appending a trace whose head is not a backoff preserves the
backoff-follows-attempt property. -/
theorem bfa_append : ∀ l1 l2 : List Event, backoffFollowsAttempt l1 →
    backoffFollowsAttempt l2 → (∀ d, l2.head? ≠ some (Event.backoff d)) →
    backoffFollowsAttempt (l1 ++ l2) := by
  intro l1
  induction l1 with
  | nil => intro l2 h1 h2 hhd; simpa
  | cons e rest ih =>
    intro l2 h1 h2 hhd
    cases rest with
    | nil =>
      cases l2 with
      | nil => simp [backoffFollowsAttempt]
      | cons f l2' =>
        refine ⟨?_, h2⟩
        intro n d hn hd2
        exact absurd (show (f :: l2' : List Event).head? = some (Event.backoff d) by
          simp [hd2]) (hhd d)
    | cons r rest' =>
      obtain ⟨hc, h1'⟩ := h1
      exact ⟨hc, ih l2 h1' h2 hhd⟩

/-- The loop's trace satisfies the backoff-follows-attempt property. -/
theorem runAttempts_bfa (c : Client) (env : Env) :
    ∀ d a, c.retries + 1 - a ≤ d → backoffFollowsAttempt (runAttemptsFrom c env a).1 := by
  intro d
  induction d with
  | zero =>
    intro a hd
    unfold runAttemptsFrom
    split
    · simp [backoffFollowsAttempt]
    · split
      · simp [backoffFollowsAttempt]
      · split
        · next ha => exact absurd ha (by omega)
        · simp [backoffFollowsAttempt]
  | succ d ih =>
    intro a hd
    unfold runAttemptsFrom
    split
    · simp [backoffFollowsAttempt]
    · split
      · simp [backoffFollowsAttempt]
      · split
        · split
          · simp [backoffFollowsAttempt]
          · rcases runAttempts_head c env (a + 1) with ⟨tl, htl⟩
            show backoffFollowsAttempt
              (Event.attempt a :: Event.backoff ((a + 1 : Int) * 100 * millisecond) ::
                (runAttemptsFrom c env (a + 1)).1)
            rw [htl]
            refine ⟨?_, ?_, ?_⟩
            · intro n dd hn hdd
              cases hn; cases hdd; rfl
            · intro n dd hn
              cases hn
            · rw [← htl]
              exact ih (a + 1) (by omega)
        · simp [backoffFollowsAttempt]

/-- Every backoff in the loop's trace lies between the failed attempt n it
waits for and the retry n+1, and lasts (n+1) * 100 milliseconds. -/
theorem runAttempts_backoff_mem (c : Client) (env : Env) :
    ∀ d a, c.retries + 1 - a ≤ d →
      ∀ dd, Event.backoff dd ∈ (runAttemptsFrom c env a).1 →
        ∃ n, Event.attempt n ∈ (runAttemptsFrom c env a).1 ∧
          Event.attempt (n + 1) ∈ (runAttemptsFrom c env a).1 ∧
          dd = ((n : Int) + 1) * 100 * millisecond := by
  intro d
  induction d with
  | zero =>
    intro a hd dd hdd
    unfold runAttemptsFrom at hdd
    split at hdd
    · simp at hdd
    · split at hdd
      · simp at hdd
      · split at hdd
        · next ha => exact absurd ha (by omega)
        · simp at hdd
  | succ d ih =>
    intro a hd dd hdd
    unfold runAttemptsFrom at hdd
    split at hdd
    · simp at hdd
    · next e2 heq =>
      split at hdd
      · simp at hdd
      · next hc =>
        split at hdd
        · next hlt =>
          split at hdd
          · simp at hdd
          · next hw =>
            have hev : (runAttemptsFrom c env a).1 =
                Event.attempt a :: Event.backoff ((a + 1 : Int) * 100 * millisecond) ::
                  (runAttemptsFrom c env (a + 1)).1 :=
              congrArg Prod.fst (runAttempts_step c env a e2 heq hc hlt hw)
            rw [hev]
            simp only [List.mem_cons] at hdd
            rcases hdd with hdd | hdd
            · cases hdd
            rcases hdd with hdd | hdd
            · cases hdd
              rcases runAttempts_head c env (a + 1) with ⟨tl, htl⟩
              refine ⟨a, by simp, ?_, rfl⟩
              simp only [List.mem_cons]
              right; right
              rw [htl]
              simp
            · rcases ih (a + 1) (by omega) dd hdd with ⟨n, h1, h2, h3⟩
              exact ⟨n, by simp [List.mem_cons, h1], by simp [List.mem_cons, h2], h3⟩
        · simp at hdd

/-- C5: every backoff wait Client.Request inserts after failed attempt n
(0-indexed) and before retry n+1 lasts exactly (n+1) * 100 milliseconds:
linearly increasing, not exponential. -/
theorem request_backoff_linear (c : Client) (path : String) (env : Env) :
    backoffFollowsAttempt (request c path env).events ∧
    ∀ dd, Event.backoff dd ∈ (request c path env).events →
      ∃ n, Event.attempt n ∈ (request c path env).events ∧
        Event.attempt (n + 1) ∈ (request c path env).events ∧
        dd = ((n : Int) + 1) * 100 * millisecond := by
  have hloopB := runAttempts_bfa c env (c.retries + 1 - 0) 0 le_rfl
  have hloopM := runAttempts_backoff_mem c env (c.retries + 1 - 0) 0 le_rfl
  have hshape := runAttempts_events_shape c env (c.retries + 1 - 0) 0 le_rfl
  rcases hb : env.body with _ | v
  case _ =>
    rcases hq : env.newRequestErr with _ | m2
    · rcases hl : (runAttemptsFrom c env 0).2 with r | te | ce | m3
      · have hev : (request c path env).events =
            (runAttemptsFrom c env 0).1 ++ (handleResponse env r).1 := by
          simp [request, hb, hq, hl]
        rw [hev]
        constructor
        · refine bfa_append _ _ hloopB ?_ ?_
          · rcases handleResponse_events env r with h | h <;> rw [h] <;>
              simp [backoffFollowsAttempt]
          · intro dd
            rcases handleResponse_events env r with h | h <;> rw [h] <;> simp
        · intro dd hdd
          rcases List.mem_append.1 hdd with hdd | hdd
          · rcases hloopM dd hdd with ⟨n, h1, h2, h3⟩
            exact ⟨n, List.mem_append_left _ h1, List.mem_append_left _ h2, h3⟩
          · exfalso
            rcases handleResponse_events env r with h | h <;> rw [h] at hdd <;> simp at hdd
      all_goals
        have hev : (request c path env).events = (runAttemptsFrom c env 0).1 := by
          simp [request, hb, hq, hl]
        rw [hev]
        exact ⟨hloopB, hloopM⟩
    · have hev : (request c path env).events = [] := by
        simp [request, hb, hq]
      rw [hev]
      exact ⟨trivial, by intro dd hdd; simp at hdd⟩
  case _ =>
    rcases v with m2 | s
    · have hev : (request c path env).events = [] := by
        simp [request, hb]
      rw [hev]
      exact ⟨trivial, by intro dd hdd; simp at hdd⟩
    · rcases hq : env.newRequestErr with _ | m2
      · rcases hl : (runAttemptsFrom c env 0).2 with r | te | ce | m3
        · have hev : (request c path env).events =
              (runAttemptsFrom c env 0).1 ++ (handleResponse env r).1 := by
            simp [request, hb, hq, hl]
          rw [hev]
          constructor
          · refine bfa_append _ _ hloopB ?_ ?_
            · rcases handleResponse_events env r with h | h <;> rw [h] <;>
                simp [backoffFollowsAttempt]
            · intro dd
              rcases handleResponse_events env r with h | h <;> rw [h] <;> simp
          · intro dd hdd
            rcases List.mem_append.1 hdd with hdd | hdd
            · rcases hloopM dd hdd with ⟨n, h1, h2, h3⟩
              exact ⟨n, List.mem_append_left _ h1, List.mem_append_left _ h2, h3⟩
            · exfalso
              rcases handleResponse_events env r with h | h <;> rw [h] at hdd <;> simp at hdd
        all_goals
          have hev : (request c path env).events = (runAttemptsFrom c env 0).1 := by
            simp [request, hb, hq, hl]
          rw [hev]
          exact ⟨hloopB, hloopM⟩
      · have hev : (request c path env).events = [] := by
          simp [request, hb, hq]
        rw [hev]
        exact ⟨trivial, by intro dd hdd; simp at hdd⟩

/-- When a response was in fact obtained and its body read, the status
code is evaluated exactly once. -/
theorem request_statusEval_once (c : Client) (path : String) (env : Env)
    (r : HttpResponse)
    (hbody : ∀ m, env.body ≠ some (Except.error m))
    (hreq : env.newRequestErr = none)
    (hloop : (runAttemptsFrom c env 0).2 = LoopResult.gotResponse r)
    (hread : env.readBodyErr = none) :
    countStatusEvals (request c path env).events = 1 := by
  obtain ⟨-, he⟩ := request_of_gotResponse c path env r hbody hreq hloop
  rw [he, countStatusEvals, List.countP_append]
  have h1 : (runAttemptsFrom c env 0).1.countP Event.isStatusEval = 0 := by
    rw [List.countP_eq_zero]
    intro e hee
    rcases runAttempts_events_shape c env (c.retries + 1 - 0) 0 le_rfl e hee with
      ⟨m, rfl⟩ | ⟨dd, rfl⟩
    · simp [Event.isStatusEval]
    · simp [Event.isStatusEval]
  have h2 : (handleResponse env r).1 = [Event.statusEval r.statusCode] := by
    simp [handleResponse, hread]
  rw [h1, h2]
  simp [Event.isStatusEval]

/-- C4: once any attempt yields a response, no later attempt is ever made
regardless of its status code, and status evaluation happens exactly once,
strictly after all attempts. -/
theorem request_stops_on_response (c : Client) (path : String) (env : Env) (n : Nat)
    (resp : HttpResponse) (hok : env.transport n = .ok resp) :
    (∀ m, Event.attempt m ∈ (request c path env).events → m ≤ n) ∧
    countStatusEvals (request c path env).events ≤ 1 ∧
    (∃ k, (∀ e ∈ ((request c path env).events.take k), ∀ s, e ≠ Event.statusEval s) ∧
      (∀ e ∈ ((request c path env).events.drop k), ∀ m, e ≠ Event.attempt m)) ∧
    ((∀ m, env.body ≠ some (Except.error m)) → env.newRequestErr = none →
      ∀ r, (runAttemptsFrom c env 0).2 = LoopResult.gotResponse r →
        env.readBodyErr = none →
        countStatusEvals (request c path env).events = 1) := by
  obtain ⟨h1, h2, h3⟩ := request_stops_aux c path env n resp hok
  exact ⟨h1, h2, h3, fun hb hq r hl hr => request_statusEval_once c path env r hb hq hl hr⟩

/-- For statuses at least 400 the classifier always yields a sentinel. -/
theorem getError_ge400_sentinel (s : Int) (h : 400 ≤ s) :
    ∃ t, getErrorByStatusCode s = .sentinel t := by
  unfold getErrorByStatusCode
  split
  · exact ⟨_, rfl⟩
  · split
    · exact ⟨_, rfl⟩
    · split
      · exact ⟨_, rfl⟩
      · split
        · exact ⟨_, rfl⟩
        · split
          · exact ⟨_, rfl⟩
          · next h1 h2 h3 h4 h5 =>
            exact absurd h (by omega)

/-- The outcome of Client.Request once the body marshalled and the request
was built, as a function of how the loop ended. -/
theorem request_outcome_eq (c : Client) (path : String) (env : Env)
    (hbody : ∀ m, env.body ≠ some (Except.error m))
    (hreq : env.newRequestErr = none) :
    (request c path env).outcome =
      (match (runAttemptsFrom c env 0).2 with
       | .gotResponse resp => (handleResponse env resp).2
       | .transportCtx te => .failure (.rawTransportCtx te)
       | .waitCtx ce => .failure (.rawCtxErr ce)
       | .exhausted m => .failure (.client ⟨.sentinel .errConnectionFailed, m, ""⟩)) := by
  rcases hb : env.body with _ | (m | s)
  · rcases hl : (runAttemptsFrom c env 0).2 with r | te | ce | m3 <;>
      simp [request, hb, hreq, hl]
  · exact absurd hb (hbody m)
  · rcases hl : (runAttemptsFrom c env 0).2 with r | te | ce | m3 <;>
      simp [request, hb, hreq, hl]

/-- Helper for the failure taxonomy: the shapes a failure can take once
the body marshalled and the request was built. -/
theorem request_failure_shapes_ok (c : Client) (path : String) (env : Env)
    (e : SurfacedError)
    (hbody : ∀ m, env.body ≠ some (Except.error m))
    (hreq : env.newRequestErr = none)
    (h : (request c path env).outcome = .failure e) :
    (∃ ce s, e = SurfacedError.client ce ∧ ce.err = RestError.sentinel s) ∨
    (∃ ce st, e = SurfacedError.client ce ∧ ce.err = getErrorByStatusCode st ∧
      (st < 200 ∨ (300 ≤ st ∧ st < 400))) ∨
    (∃ te, e = SurfacedError.rawTransportCtx te) ∨
    (∃ ck, e = SurfacedError.rawCtxErr ck) := by
  have ho := request_outcome_eq c path env hbody hreq
  rcases hl : (runAttemptsFrom c env 0).2 with r | te | ce | m3 <;> rw [hl] at ho <;>
    simp only [] at ho <;> rw [ho] at h
  · rcases hr : env.readBodyErr with _ | m4
    · by_cases hs : r.statusCode < 200 ∨ 300 ≤ r.statusCode
      · have hkey : ∃ msg code, (handleResponse env r).2 =
            .failure (.client ⟨getErrorByStatusCode r.statusCode, msg, code⟩) := by
          obtain ⟨henv, hempty, hnoparse⟩ := handleResponse_non2xx env r hr hs
          rcases hp : env.parseEnvelope r.body with _ | er
          · exact ⟨_, _, hnoparse hp⟩
          · by_cases hm : er.message = ""
            · exact ⟨_, _, hempty er hp hm⟩
            · exact ⟨_, _, henv er hp hm⟩
        obtain ⟨msg, code, hkey⟩ := hkey
        rw [hkey] at h
        cases h
        by_cases h4 : 400 ≤ r.statusCode
        · obtain ⟨t, ht⟩ := getError_ge400_sentinel r.statusCode h4
          exact Or.inl ⟨_, t, rfl, ht⟩
        · exact Or.inr (Or.inl ⟨_, r.statusCode, rfl, rfl, by omega⟩)
      · obtain ⟨hnil, hfail, hok2⟩ := handleResponse_2xx env r hr (by omega)
        rcases hv : env.decodeTarget with _ | dec
        · rw [hnil hv] at h
          cases h
        · rcases hdec : dec r.body with m5 | u
          · rw [hfail dec m5 hv hdec] at h
            cases h
            exact Or.inl ⟨_, .errInvalidRequest, rfl, rfl⟩
          · cases u
            rw [hok2 dec hv hdec] at h
            cases h
    · have hre : (handleResponse env r).2 = .failure (.client
          ⟨.sentinel .errConnectionFailed, "failed to read response body: " ++ m4, ""⟩) := by
        simp [handleResponse, hr]
      rw [hre] at h
      cases h
      exact Or.inl ⟨_, .errConnectionFailed, rfl, rfl⟩
  · cases h
    exact Or.inr (Or.inr (Or.inl ⟨te, rfl⟩))
  · cases h
    exact Or.inr (Or.inr (Or.inr ⟨ce, rfl⟩))
  · cases h
    exact Or.inl ⟨_, .errConnectionFailed, rfl, rfl⟩

/-- C7 amended: every failure surfaced by Client.Request is either a
ClientError wrapping one of the eight sentinel kinds, or a ClientError
wrapping the classifier's generic unexpected-status error (possible only
for response statuses below 200 or in [300,400)), or a plain wrapped error
from request-body marshalling or request construction, or a raw
cancellation/deadline signal from the caller's context. -/
theorem request_failure_taxonomy (c : Client) (path : String) (env : Env)
    (e : SurfacedError)
    (h : (request c path env).outcome = .failure e) :
    (∃ ce s, e = SurfacedError.client ce ∧ ce.err = RestError.sentinel s) ∨
    (∃ ce st, e = SurfacedError.client ce ∧ ce.err = getErrorByStatusCode st ∧
      (st < 200 ∨ (300 ≤ st ∧ st < 400))) ∨
    (∃ m, e = SurfacedError.wrapped "failed to marshal request body" m) ∨
    (∃ m, e = SurfacedError.wrapped "failed to create request" m) ∨
    (∃ te, e = SurfacedError.rawTransportCtx te) ∨
    (∃ ck, e = SurfacedError.rawCtxErr ck) := by
  rcases hb : env.body with _ | (m | s)
  · rcases hq : env.newRequestErr with _ | m2
    · rcases request_failure_shapes_ok c path env e (by simp [hb]) hq h with
        h1 | h2 | h3 | h4
      · exact Or.inl h1
      · exact Or.inr (Or.inl h2)
      · exact Or.inr (Or.inr (Or.inr (Or.inr (Or.inl h3))))
      · exact Or.inr (Or.inr (Or.inr (Or.inr (Or.inr h4))))
    · have : (request c path env).outcome =
          .failure (.wrapped "failed to create request" m2) := by
        simp [request, hb, hq]
      rw [this] at h
      cases h
      exact Or.inr (Or.inr (Or.inr (Or.inl ⟨m2, rfl⟩)))
  · have : (request c path env).outcome =
        .failure (.wrapped "failed to marshal request body" m) := by
      simp [request, hb]
    rw [this] at h
    cases h
    exact Or.inr (Or.inr (Or.inl ⟨m, rfl⟩))
  · rcases hq : env.newRequestErr with _ | m2
    · rcases request_failure_shapes_ok c path env e (by simp [hb]) hq h with
        h1 | h2 | h3 | h4
      · exact Or.inl h1
      · exact Or.inr (Or.inl h2)
      · exact Or.inr (Or.inr (Or.inr (Or.inr (Or.inl h3))))
      · exact Or.inr (Or.inr (Or.inr (Or.inr (Or.inr h4))))
    · have : (request c path env).outcome =
          .failure (.wrapped "failed to create request" m2) := by
        simp [request, hb, hq]
      rw [this] at h
      cases h
      exact Or.inr (Or.inr (Or.inr (Or.inl ⟨m2, rfl⟩)))

/-- C7 counterexample: a 300 response surfaces a ClientError whose
underlying error is the generic unexpected-status error, not one of the
eight sentinel kinds and not a raw context error. -/
theorem request_failure_taxonomy_cex :
    (request clientDefault "/r" env300).outcome =
      .failure (.client ⟨.generic "unexpected status: Multiple Choices (300)",
        "redirect", "300"⟩) ∧
    RestError.isSentinel (.generic "unexpected status: Multiple Choices (300)") = false := by
  constructor
  · simp [request, runAttemptsFrom, env300, baseEnv, handleResponse, getErrorByStatusCode,
      statusText]
    exact ⟨rfl, rfl⟩
  · rfl

/-- C7 witness: the amended taxonomy applied to the 300-status scenario. -/
theorem request_failure_taxonomy_witness :
    (∃ ce s, (SurfacedError.client ⟨.generic "unexpected status: Multiple Choices (300)",
        "redirect", "300"⟩) = SurfacedError.client ce ∧ ce.err = RestError.sentinel s) ∨
    (∃ ce st, (SurfacedError.client ⟨.generic "unexpected status: Multiple Choices (300)",
        "redirect", "300"⟩) = SurfacedError.client ce ∧ ce.err = getErrorByStatusCode st ∧
      (st < 200 ∨ (300 ≤ st ∧ st < 400))) ∨
    (∃ m, (SurfacedError.client ⟨.generic "unexpected status: Multiple Choices (300)",
        "redirect", "300"⟩) = SurfacedError.wrapped "failed to marshal request body" m) ∨
    (∃ m, (SurfacedError.client ⟨.generic "unexpected status: Multiple Choices (300)",
        "redirect", "300"⟩) = SurfacedError.wrapped "failed to create request" m) ∨
    (∃ te, (SurfacedError.client ⟨.generic "unexpected status: Multiple Choices (300)",
        "redirect", "300"⟩) = SurfacedError.rawTransportCtx te) ∨
    (∃ ck, (SurfacedError.client ⟨.generic "unexpected status: Multiple Choices (300)",
        "redirect", "300"⟩) = SurfacedError.rawCtxErr ck) :=
  request_failure_taxonomy clientDefault "/r" env300 _
    (by simp [request, runAttemptsFrom, env300, baseEnv, handleResponse,
      getErrorByStatusCode, statusText]
        exact ⟨rfl, rfl⟩)

/-- The URL field Client.Request resolves, in the code's own shape. -/
theorem request_url (c : Client) (path : String) (env : Env) :
    (request c path env).url = if c.baseURL ≠ "" then c.baseURL ++ path else path := by
  rcases hb : env.body with _ | (m | s)
  · rcases hq : env.newRequestErr with _ | m2
    · rcases hl : (runAttemptsFrom c env 0).2 with r | te | ce | m3 <;>
        simp [request, hb, hq, hl]
    · simp [request, hb, hq]
  · simp [request, hb]
  · rcases hq : env.newRequestErr with _ | m2
    · rcases hl : (runAttemptsFrom c env 0).2 with r | te | ce | m3 <;>
        simp [request, hb, hq, hl]
    · simp [request, hb, hq]

/-- C3 counterexample: with a non-empty baseURL, a path that is itself a
full absolute URL is not used verbatim; it is concatenated onto baseURL. -/
theorem request_url_verbatim_cex :
    specIsFullURL "http://b/users" = true ∧
    (request clientBaseA "http://b/users" env200ok).url = "http://ahttp://b/users" ∧
    ("http://ahttp://b/users" : String) ≠ "http://b/users" := by
  refine ⟨by decide, ?_, by decide⟩
  rw [request_url]
  simp [clientBaseA, clientDefault, defaultClient]

/-- C3 amended: the request URL is the path verbatim exactly when the
client's baseURL is empty; otherwise it is baseURL ++ path with no
separator normalization, regardless of whether the path is itself a full
absolute URL. -/
theorem request_url_concat (c : Client) (path : String) (env : Env) :
    (request c path env).url = if c.baseURL = "" then path else c.baseURL ++ path := by
  rw [request_url]
  by_cases h : c.baseURL = "" <;> simp [h]

/-- The timeout field of the client after option application is the last
configured timeout value. -/
theorem foldl_timeout (opts : List ClientOption) : ∀ c0 : Client,
    (opts.foldl applyOption c0).timeout =
      opts.foldl (fun t o => match o with | ClientOption.withTimeout t2 => t2 | _ => t)
        c0.timeout := by
  induction opts with
  | nil => intro c0; rfl
  | cons o rest ih =>
    intro c0
    rw [List.foldl_cons, List.foldl_cons, ih]
    congr 1
    cases o <;> rfl

/-- C10: for every option list, a successfully constructed client has
HTTPClient.Timeout equal to its Timeout field — NewClient overwrites any
injected HTTP client's timeout with the configured timeout (the last
WithTimeout value, or the 30-second default). -/
theorem newClient_timeout (dlr : Except String Logger) (opts : List ClientOption)
    (c : Client) (h : newClient dlr opts = .ok c) :
    c.httpClient.timeout = c.timeout ∧ c.timeout = lastConfiguredTimeout opts := by
  have hfold := foldl_timeout opts defaultClient
  rcases hlog : (opts.foldl applyOption defaultClient).logger with _ | lg
  · rcases hdlr : dlr with e | lg2
    · simp only [newClient, hlog, hdlr] at h
      cases h
    · simp only [newClient, hlog, hdlr] at h
      injection h with h2
      subst h2
      refine ⟨rfl, ?_⟩
      show (opts.foldl applyOption defaultClient).timeout = lastConfiguredTimeout opts
      rw [hfold]
      rfl
  · simp only [newClient, hlog] at h
    injection h with h2
    subst h2
    refine ⟨rfl, ?_⟩
    show (opts.foldl applyOption defaultClient).timeout = lastConfiguredTimeout opts
    rw [hfold]
    rfl

/-- C10 witness: injecting an HTTP client with a 5-second timeout and
configuring a 10-second timeout yields a client whose HTTP client carries
the configured timeout. -/
theorem newClient_timeout_witness :
    timeoutOptsClient.httpClient.timeout = timeoutOptsClient.timeout ∧
    timeoutOptsClient.timeout = lastConfiguredTimeout timeoutOpts :=
  newClient_timeout (.ok ⟨⟩) timeoutOpts timeoutOptsClient (by rfl)

/-- C4 witness: transport attempt 0 answers 200, so every recorded attempt
has index 0 and the single status evaluation comes after it. -/
theorem request_stops_on_response_witness :
    (∀ m, Event.attempt m ∈ (request clientDefault "/ping" env200ok).events → m ≤ 0) ∧
    countStatusEvals (request clientDefault "/ping" env200ok).events ≤ 1 ∧
    (∃ k, (∀ e ∈ ((request clientDefault "/ping" env200ok).events.take k),
        ∀ s, e ≠ Event.statusEval s) ∧
      (∀ e ∈ ((request clientDefault "/ping" env200ok).events.drop k),
        ∀ m, e ≠ Event.attempt m)) ∧
    ((∀ m, env200ok.body ≠ some (Except.error m)) → env200ok.newRequestErr = none →
      ∀ r, (runAttemptsFrom clientDefault env200ok 0).2 = LoopResult.gotResponse r →
        env200ok.readBodyErr = none →
        countStatusEvals (request clientDefault "/ping" env200ok).events = 1) :=
  request_stops_on_response clientDefault "/ping" env200ok 0 ⟨200, "\x7b\x7d"⟩ rfl

end Rest

namespace Api

/-- C9: WriteSuccess writes the status_code/data/meta envelope with meta
omitted when absent, WriteError writes the error envelope with status code
and message, and all WriteJSON output is pretty-printed with two-space
indentation and a trailing newline. -/
theorem response_wire_format :
    (∀ data : Json, (writeSuccess data none).body =
      "\x7b\n  \"status_code\": 200,\n  \"data\": " ++ render 1 data ++ "\n\x7d\n") ∧
    (∀ data meta : Json, (writeSuccess data (some meta)).body =
      "\x7b\n  \"status_code\": 200,\n  \"data\": " ++ render 1 data ++
        ",\n  \"meta\": " ++ render 1 meta ++ "\n\x7d\n") ∧
    (∀ (data : Json) (m : Option Json), (writeSuccess data m).status = 200) ∧
    (∀ e : AError, (writeError (.api e)).status = e.statusCode ∧
      (writeError (.api e)).body =
        "\x7b\n  \"error\": \x7b\n    \"status_code\": " ++ toString e.statusCode ++
          ",\n    \"message\": " ++ quote e.message ++ "\n  \x7d\n\x7d\n") ∧
    (∀ m : String, (writeError (.generic m)).status = 500 ∧
      (writeError (.generic m)).body =
        "\x7b\n  \"error\": \x7b\n    \"status_code\": 500,\n    \"message\": " ++
          quote m ++ "\n  \x7d\n\x7d\n") ∧
    (∀ (st : Int) (d : Json) (hs : List (String × List String)),
      ∃ js, (writeJSON st d hs).body = js ++ "\n") := by
  have k1 : quote "status_code" = "\"status_code\"" := by decide
  have k2 : quote "data" = "\"data\"" := by decide
  have k3 : quote "meta" = "\"meta\"" := by decide
  have k4 : quote "error" = "\"error\"" := by decide
  have k9 : quote "message" = "\"message\"" := by decide
  have k5 : indent 1 = "  " := by decide
  have k6 : indent 0 = "" := by decide
  have k7 : indent 2 = "    " := by decide
  have k8 : (toString (200 : Int)) = "200" := by decide
  have k0 : (toString (500 : Int)) = "500" := by decide
  refine ⟨?_, ?_, ?_, ?_, ?_, ?_⟩
  · intro data
    simp [writeSuccess, writeJSON, marshalIndent, successJson,
      render, renderFields, k1, k2, k5, k6, k8, String.append_assoc]
    repeat rw [← String.append_assoc]
    simp [String.append_assoc]
  · intro data meta
    simp [writeSuccess, writeJSON, marshalIndent, successJson,
      render, renderFields, k1, k2, k3, k5, k6, k8, String.append_assoc]
    repeat rw [← String.append_assoc]
    simp [String.append_assoc]
  · intro data m
    rcases m with _ | m <;> rfl
  · intro e
    refine ⟨rfl, ?_⟩
    simp [writeError, writeJSON, marshalIndent, errorJson,
      render, renderFields, k1, k4, k9, k5, k6, k7, String.append_assoc]
    repeat rw [← String.append_assoc]
    simp [String.append_assoc]
  · intro m
    refine ⟨rfl, ?_⟩
    simp [writeError, writeJSON, marshalIndent, errorJson,
      render, renderFields, k1, k4, k9, k5, k6, k7, k0, String.append_assoc]
    repeat rw [← String.append_assoc]
    simp [String.append_assoc]
  · intro st d hs
    exact ⟨marshalIndent d, rfl⟩

end Api
